import Mathlib

/-!
Verification of the Electrobun encrypted RPC core.

Shallow embedding of the protocol code in:
  - src/package/src/browser/eden.ts         (browser-side caller: request
    correlator, message router, id generation)
  - src/unnamed/part_005                    (Elysia RPC server: dispatch,
    sendToWebview, startRPCServer)
  - src/package/src/bun/core/ElysiaRPC.ts   (encrypt/decrypt, startServer,
    sendMessageToWebviewViaSocket)
  - src/package/src/bun/index.ts            (registerMessageHandler,
    sendToWebview)

JavaScript Maps are modelled as association lists with the usual
get/set/delete operations; JS Sets of handlers are modelled as duplicate-free
lists of handler identifiers; mutable Set objects captured by closures are
modelled as heap cells addressed by an allocation counter.  Promise
resolution/rejection and handler invocation are modelled as emitted effects.
Node's aes-256-gcm cipher is modelled as a GCM-shaped stream cipher
parameterised over the (opaque) keystream and tag functions; `createCipheriv`
rejects keys that are not exactly 32 bytes, which the model reflects by
returning `none`.
-/

namespace Electrobun

/-- Lookup in an association list, modelling JavaScript `Map.get`. -/
def lookupKey {κ ν : Type} [DecidableEq κ] : List (κ × ν) → κ → Option ν
  | [], _ => none
  | (k', v) :: rest, k => if k' = k then some v else lookupKey rest k

/-- Insert or overwrite in an association list, modelling JavaScript `Map.set`. -/
def setKey {κ ν : Type} [DecidableEq κ] : List (κ × ν) → κ → ν → List (κ × ν)
  | [], k, v => [(k, v)]
  | (k', v') :: rest, k, v =>
    if k' = k then (k, v) :: rest else (k', v') :: setKey rest k v

/-- Remove a key from an association list, modelling JavaScript `Map.delete`. -/
def eraseKey {κ ν : Type} [DecidableEq κ] : List (κ × ν) → κ → List (κ × ν)
  | [], _ => []
  | (k', v) :: rest, k =>
    if k' = k then eraseKey rest k else (k', v) :: eraseKey rest k

/-! ### Packet shapes (eden.ts lines 13-35, part_005 lines 65-87) -/

/-- RPC Request format: interface RPCRequest in eden.ts / part_005. -/
structure RPCRequest (α : Type) where
  id : String
  method : String
  params : α
deriving DecidableEq

/-- RPC Response format: interface RPCResponse; `result` and `error` are
optional fields. -/
structure RPCResponse (α : Type) where
  id : String
  result : Option α
  error : Option String
deriving DecidableEq

/-- RPC Message format: interface RPCMessage. -/
structure RPCMessage (α : Type) where
  name : String
  payload : α
deriving DecidableEq

/-- The tagged union RPCPacket = RPCRequest | RPCResponse | RPCMessage. -/
inductive RPCPacket (α : Type)
  | request (r : RPCRequest α)
  | response (r : RPCResponse α)
  | message (m : RPCMessage α)
deriving DecidableEq

/-! ### Envelope codec (ElysiaRPC.ts lines 50-74, part_005 lines 27-51)

`encrypt(secretKey, text)` builds an aes-256-gcm cipher over a fresh 12-byte
iv and returns ciphertext, iv and tag; `decrypt` rebuilds the decipher, sets
the auth tag and decrypts.  AES-GCM is a stream construction: the ciphertext
is the plaintext XORed with a keystream determined by (key, iv, position) and
the tag is a function of (key, iv, ciphertext) (no AAD is used by the code).
The model keeps those two functions opaque in `GCMCipher`, so every theorem
quantified over a `GCMCipher` holds for the real AES-256-GCM instantiation.
Node's `createCipheriv("aes-256-gcm", ...)` throws unless the key is exactly
32 bytes, so both directions return `none` on any other key length.  Base64
transport encoding of the three fields is omitted (`atob`/`btoa` are mutually
inverse and applied at both ends); bytes are `Nat`s. -/

/-- Wire envelope: ciphertext, iv (nonce) and authentication tag. -/
structure Envelope where
  encryptedData : List Nat
  iv : List Nat
  tag : List Nat
deriving DecidableEq

/-- Opaque GCM internals: keystream byte at a position, and tag over the
ciphertext, both determined by key and iv. -/
structure GCMCipher where
  keystream : List Nat → List Nat → Nat → Nat
  tagOf : List Nat → List Nat → List Nat → List Nat

/-- XOR a byte list with the keystream starting at position `i`. -/
def xorStreamFrom (ks : Nat → Nat) : Nat → List Nat → List Nat
  | _, [] => []
  | i, b :: rest => (b ^^^ ks i) :: xorStreamFrom ks (i + 1) rest

/-- XOR a byte list with the cipher's keystream for the given key and iv. -/
def xorStream (c : GCMCipher) (key iv data : List Nat) : List Nat :=
  xorStreamFrom (c.keystream key iv) 0 data

/-- encrypt (ElysiaRPC.ts line 50): aes-256-gcm under `secretKey` and the
fresh `iv`; `none` models the `createCipheriv` throw on a non-32-byte key. -/
def encryptGCM (c : GCMCipher) (secretKey iv text : List Nat) : Option Envelope :=
  if secretKey.length = 32 then
    let ct := xorStream c secretKey iv text
    some (Envelope.mk ct iv (c.tagOf secretKey iv ct))
  else none

/-- decrypt (ElysiaRPC.ts line 61): rejects a non-32-byte key, verifies the
auth tag, and XORs the ciphertext back; `none` models the throw from
`decipher.final()` on tag mismatch. -/
def decryptGCM (c : GCMCipher) (secretKey : List Nat) (env : Envelope) :
    Option (List Nat) :=
  if secretKey.length = 32 then
    if c.tagOf secretKey env.iv env.encryptedData = env.tag then
      some (xorStream c secretKey env.iv env.encryptedData)
    else none
  else none

/-- A concrete cipher instance used to evaluate the model on explicit
inputs. -/
def zeroCipher : GCMCipher :=
  GCMCipher.mk (fun _ _ _ => 0) (fun _ _ _ => [])

/-! ### Message router (eden.ts lines 62, 241-259; same shape as
registerMessageHandler in bun/index.ts lines 310-327)

`messageHandlers : Map<string, Set<handler>>`.  The unsubscribe closure
returned by `onMessage` captures the `handlers` Set object itself, so the
model gives every allocated Set a heap id: `sets` is the heap of Set objects,
`byName` is the `messageHandlers` map from name to the Set it currently
holds, and `nextId` is the allocator.  Handlers are identified by `Nat`. -/

structure Router where
  sets : List (Nat × List Nat)
  byName : List (String × Nat)
  nextId : Nat
deriving DecidableEq

/-- The values captured by the unsubscribe closure: the `handlers` Set
object, `name`, and `handler`. -/
structure Unsub where
  setId : Nat
  name : String
  handler : Nat
deriving DecidableEq

/-- JavaScript `Set.add`: no-op when the element is already present. -/
def setAdd (s : List Nat) (h : Nat) : List Nat :=
  if h ∈ s then s else s ++ [h]

/-- JavaScript `Set.delete`. -/
def setRemove : List Nat → Nat → List Nat
  | [], _ => []
  | x :: rest, h => if x = h then setRemove rest h else x :: setRemove rest h

/-- The empty router (module initialisation state). -/
def routerInit : Router := Router.mk [] [] 0

/-- Contents of the Set currently registered under `name`
(`messageHandlers.get(name)`), used by packet dispatch. -/
def handlersFor (rt : Router) (name : String) : List Nat :=
  match lookupKey rt.byName name with
  | some sid => (lookupKey rt.sets sid).getD []
  | none => []

/-- onMessage (eden.ts lines 241-259): create the Set for `name` when absent,
add the handler, and return the unsubscribe capability (the captured Set
object, name and handler). -/
def onMessage (rt : Router) (name : String) (h : Nat) : Router × Unsub :=
  let alloc :=
    match lookupKey rt.byName name with
    | some sid => (rt, sid)
    | none =>
      (Router.mk (rt.sets ++ [(rt.nextId, [])]) (setKey rt.byName name rt.nextId)
        (rt.nextId + 1), rt.nextId)
  let rt1 := alloc.1
  let sid := alloc.2
  let rt2 := Router.mk
    (setKey rt1.sets sid (setAdd ((lookupKey rt1.sets sid).getD []) h))
    rt1.byName rt1.nextId
  (rt2, Unsub.mk sid name h)

/-- The unsubscribe closure body (eden.ts lines 253-258):
`handlers.delete(handler); if (handlers.size === 0) messageHandlers.delete(name)`,
where `handlers` is the Set captured at subscription time. -/
def unsubscribe (rt : Router) (u : Unsub) : Router :=
  let content := setRemove ((lookupKey rt.sets u.setId).getD []) u.handler
  let rt1 := Router.mk (setKey rt.sets u.setId content) rt.byName rt.nextId
  if content.length = 0 then
    Router.mk rt1.sets (eraseKey rt1.byName u.name) rt1.nextId
  else rt1

/-- First step of the C6 probe run: subscribe handler 1 under "a", keeping
the returned unsubscribe capability. -/
def c6Sub1 : Router × Unsub := onMessage routerInit ("a") 1

/-- Second step: call the capability once (removes handler 1, empties its
Set, deletes the "a" map entry). -/
def c6AfterFirstUnsub : Router := unsubscribe c6Sub1.1 c6Sub1.2

/-- Third step: subscribe handler 2 under "a" (allocates a fresh Set and a
fresh "a" entry). -/
def c6Resub : Router := (onMessage c6AfterFirstUnsub ("a") 2).1

/-- Fourth step: call the same capability a second time. -/
def c6AfterSecondUnsub : Router := unsubscribe c6Resub c6Sub1.2

/-! ### Caller-side request correlator (eden.ts lines 41-56, 107-145, 166-198)

`pendingRequests : Map<string, PendingRequest>` maps a request id to its
entry; the entry's `timeout` handle is modelled by a Bool recording whether
the deadline timer is still armed (armed timers are cleared exactly when the
entry holding them is settled).  Calls on the entry's `resolve`/`reject`
callbacks and runs of message handlers are emitted as effects. -/

structure EdenState where
  pending : List (String × Bool)
  router : Router
deriving DecidableEq

/-- Observable effects of the browser-side packet/timer handlers. -/
inductive EdenEffect (α : Type)
  | resolved (id : String) (result : Option α)
  | rejectedRemote (id : String) (msg : String)
  | rejectedTimeout (id : String) (method : String)
  | rejectedSend (id : String)
  | ranHandler (handler : Nat) (name : String) (payload : α)
  | ranWildcard (handler : Nat) (name : String) (payload : α)
deriving DecidableEq

/-- handleIncomingPacket (eden.ts lines 107-145).  Response branch: a pending
entry is settled (timer cleared, entry deleted, then reject on a truthy
`error` — a non-empty string — else resolve with `result`); with no pending
entry the packet falls through untouched.  Message branch: run the handlers
for the name, then the wildcard handlers.  Request packets have no branch. -/
def handleIncomingPacket {α : Type} (st : EdenState) (p : RPCPacket α) :
    EdenState × List (EdenEffect α) :=
  match p with
  | .response r =>
    match lookupKey st.pending r.id with
    | some _ =>
      let st' := EdenState.mk (eraseKey st.pending r.id) st.router
      match r.error with
      | some e =>
        if e = "" then (st', [.resolved r.id r.result])
        else (st', [.rejectedRemote r.id e])
      | none => (st', [.resolved r.id r.result])
    | none => (st, [])
  | .message m =>
    (st, ((handlersFor st.router m.name).map fun h => .ranHandler h m.name m.payload)
      ++ ((handlersFor st.router ("*")).map fun h => .ranWildcard h m.name m.payload))
  | .request _ => (st, [])

/-- External events hitting the caller side: an incoming decrypted packet,
the deadline timer of a request firing (only possible while still armed),
or the `sendPacket` promise rejecting for a request (eden.ts lines 181-196). -/
inductive EdenEvent (α : Type)
  | incoming (p : RPCPacket α)
  | timerFire (id : String) (method : String)
  | sendFail (id : String)
deriving DecidableEq

/-- One event step.  `timerFire` models the `setTimeout` callback of
callProcedure (delete the entry, reject with the timeout error); it can only
run while its timer is armed, i.e. while the entry is still present.
`sendFail` models the `sendPacket(...).catch` handler (clear the timer,
delete the entry, reject with the send error); rejecting an already-settled
promise is a no-op, which the model reflects by emitting nothing when the
entry is already gone. -/
def edenStep {α : Type} (st : EdenState) (e : EdenEvent α) :
    EdenState × List (EdenEffect α) :=
  match e with
  | .incoming p => handleIncomingPacket st p
  | .timerFire id method =>
    match lookupKey st.pending id with
    | some armed =>
      if armed then
        (EdenState.mk (eraseKey st.pending id) st.router, [.rejectedTimeout id method])
      else (st, [])
    | none => (st, [])
  | .sendFail id =>
    match lookupKey st.pending id with
    | some _ => (EdenState.mk (eraseKey st.pending id) st.router, [.rejectedSend id])
    | none => (st, [])

/-- Run a sequence of events, accumulating effects. -/
def edenRun {α : Type} (st : EdenState) : List (EdenEvent α) → EdenState × List (EdenEffect α)
  | [] => (st, [])
  | e :: rest =>
    ((edenRun (edenStep st e).1 rest).1,
      (edenStep st e).2 ++ (edenRun (edenStep st e).1 rest).2)

/-- callProcedure registering its Pending Request (eden.ts lines 180-190):
`pendingRequests.set(id, ...)` with the deadline timer armed. -/
def callStart (st : EdenState) (id : String) : EdenState :=
  EdenState.mk (setKey st.pending id true) st.router

/-- The empty caller state (module initialisation). -/
def edenInit : EdenState := EdenState.mk [] routerInit

/-- Does this effect settle request `id` through one of the three claimed
paths (resolve, reject-remote, reject-timeout)? -/
def isSettlementFor {α : Type} (id : String) : EdenEffect α → Bool
  | .resolved i _ => decide (i = id)
  | .rejectedRemote i _ => decide (i = id)
  | .rejectedTimeout i _ => decide (i = id)
  | _ => false

/-- Is this an event that settles request `id` when its entry is live:
a matching Response, or its deadline timer firing? -/
def isSettlingEventFor {α : Type} (id : String) : EdenEvent α → Bool
  | .incoming (.response r) => decide (r.id = id)
  | .timerFire i _ => decide (i = id)
  | _ => false

/-- Is this the send-failure event for request `id`? -/
def isSendFailFor {α : Type} (id : String) : EdenEvent α → Bool
  | .sendFail i => decide (i = id)
  | _ => false

/-! ### Request id generation (eden.ts lines 41-44)

`let requestIdCounter = 0;  () => req_${++requestIdCounter}_${Date.now()}`.
The counter is modelled as a Nat (JavaScript number increments are exact in
every reachable state) and the template-literal decimal rendering as
`natDecimal`. -/

/-- Decimal rendering of a Nat, as produced by a JS template literal. -/
def natDecimal (n : Nat) : List Char :=
  if n = 0 then ['0'] else ((Nat.digits 10 n).map Nat.digitChar).reverse

/-- The id string `req_<counter>_<now>`. -/
def requestIdString (counter now : Nat) : String :=
  String.mk (['r', 'e', 'q', '_'] ++ natDecimal counter ++ '_' :: natDecimal now)

/-- generateRequestId: pre-increment the module counter, render the id. -/
def generateRequestId (counter now : Nat) : String × Nat :=
  (requestIdString (counter + 1) now, counter + 1)

/-- The ids produced by successive calls of generateRequestId within one
process run, one per observed timestamp, threading the counter. -/
def idsFrom (counter : Nat) : List Nat → List String
  | [] => []
  | t :: ts =>
    (generateRequestId counter t).1 :: idsFrom (generateRequestId counter t).2 ts

/-! ### Host-side dispatch and socket sends (part_005 lines 98-272,
ElysiaRPC.ts lines 262-291, bun/index.ts lines 399-421)

A procedure handler `(params, ctx) => result` that may throw or reject is
modelled as a function into `Except String` whose error carries the message
extracted at the catch site (`error instanceof Error ? error.message :
String(error)`).  `JSON.stringify` of a packet is an opaque serialisation
parameter `enc`.  The socket registry `socketMap` and the list of frames
written to sockets form the `WireState`; websocket readyState OPEN is 1. -/

/-- A live websocket handle; only its readyState is observed by the code. -/
structure Socket where
  readyState : Nat
deriving DecidableEq

/-- A BrowserView: its id and its per-connection symmetric key. -/
structure BrowserView where
  id : Nat
  secretKey : List Nat
deriving DecidableEq

/-- The socket registry plus the frames sent so far (webviewId, envelope). -/
structure WireState where
  socketMap : List (Nat × Socket)
  sent : List (Nat × Envelope)
deriving DecidableEq

/-- sendToWebview (part_005 lines 250-272, identical in bun/index.ts lines
399-421): look up the socket for the view; when open, encrypt the serialised
packet under the view's `secretKey` and send it, returning true; otherwise —
or when encryption throws — return false and send nothing. -/
def sendToWebview {α : Type} (c : GCMCipher) (enc : RPCPacket α → List Nat)
    (st : WireState) (bv : BrowserView) (iv : List Nat) (packet : RPCPacket α) :
    Bool × WireState :=
  match lookupKey st.socketMap bv.id with
  | some s =>
    if s.readyState = 1 then
      match encryptGCM c bv.secretKey iv (enc packet) with
      | some env => (true, WireState.mk st.socketMap (st.sent ++ [(bv.id, env)]))
      | none => (false, st)
    else (false, st)
  | none => (false, st)

/-- sendMessageToWebviewViaSocket (ElysiaRPC.ts lines 269-291): look up both
the socket and the BrowserView for `webviewId`; bail out with false when
either is missing or the socket is not open; otherwise encrypt under the
view's key and send. -/
def sendMessageToWebviewViaSocket {α : Type} (c : GCMCipher)
    (enc : RPCPacket α → List Nat) (views : List (Nat × BrowserView))
    (st : WireState) (webviewId : Nat) (iv : List Nat) (message : RPCPacket α) :
    Bool × WireState :=
  match lookupKey st.socketMap webviewId, lookupKey views webviewId with
  | some s, some bv =>
    if s.readyState = 1 then
      match encryptGCM c bv.secretKey iv (enc message) with
      | some env => (true, WireState.mk st.socketMap (st.sent ++ [(webviewId, env)]))
      | none => (false, st)
    else (false, st)
  | _, _ => (false, st)

/-- Registered procedures: `globalProcedures : Map<string, handler>`. -/
def ProcMap (α : Type) : Type := List (String × (α → Nat → Except String α))

/-- The pure core of handleRequest (part_005 lines 185-217): look up the
method; when absent build the unknown-procedure error Response; when present
run the handler under try/catch and build a result or error Response.  The
Bool records whether a handler was invoked. -/
def handleRequestCore {α : Type} (procs : ProcMap α) (webviewId : Nat)
    (req : RPCRequest α) : RPCResponse α × Bool :=
  match lookupKey procs req.method with
  | none =>
    (RPCResponse.mk req.id none (some ("Unknown procedure: " ++ req.method)), false)
  | some h =>
    match h req.params webviewId with
    | .ok result => (RPCResponse.mk req.id (some result) none, true)
    | .error e => (RPCResponse.mk req.id none (some e), true)

/-- The outcome of one dispatch: the Response built, whether a handler ran,
whether the Response reached the socket, and the wire state after. -/
structure DispatchResult (α : Type) where
  response : RPCResponse α
  invoked : Bool
  delivered : Bool
  wire : WireState

/-- handleRequest (part_005 lines 185-221): build the Response and hand it to
sendToWebview for the originating view. -/
def handleRequest {α : Type} (c : GCMCipher) (enc : RPCPacket α → List Nat)
    (procs : ProcMap α) (st : WireState) (bv : BrowserView) (iv : List Nat)
    (req : RPCRequest α) : DispatchResult α :=
  let core := handleRequestCore procs bv.id req
  let send := sendToWebview c enc st bv iv (RPCPacket.response core.1)
  DispatchResult.mk core.1 core.2 send.1 send.2

/-! ### Transport bootstrap (ElysiaRPC.ts lines 171-197, part_005 lines
277-302)

`startServer` scans ports 50000..65535, retrying on EADDRINUSE, stores the
first bound port in the module variable `serverPort` (read back by
`getServerPort`) and throws "No available ports..." on exhaustion.  The
environment's `app.listen(port)` outcome is a parameter `bind`. -/

/-- Outcome of attempting to bind one port. -/
inductive BindResult
  | ok
  | inUse
  | otherErr (msg : String)
deriving DecidableEq

/-- Errors startServer can throw. -/
inductive StartError
  | noAvailablePorts
  | other (msg : String)
deriving DecidableEq

/-- The `for (port = startPort; port <= endPort; port++)` loop, with the
number of remaining ports as fuel. -/
def scanFrom (bind : Nat → BindResult) : Nat → Nat → Except StartError Nat
  | _, 0 => .error .noAvailablePorts
  | port, Nat.succ n =>
    match bind port with
    | .ok => .ok port
    | .inUse => scanFrom bind (port + 1) n
    | .otherErr e => .error (.other e)

/-- startServer: scan the fixed range 50000..65535 (15536 ports). -/
def startServer (bind : Nat → BindResult) : Except StartError Nat :=
  scanFrom bind 50000 15536

/-- startServer together with the `serverPort` module variable it assigns,
as read back by getServerPort; on a throw the variable keeps its old value. -/
def startServerState (bind : Nat → BindResult) (serverPort : Nat) :
    Except StartError Nat × Nat :=
  match startServer bind with
  | .ok p => (.ok p, p)
  | .error e => (.error e, serverPort)

/-- Concrete 16-byte key (the spec's smaller allowed secret size). -/
def key16 : List Nat := List.replicate 16 0

/-- Concrete 32-byte key. -/
def key32 : List Nat := List.replicate 32 0

/-- The C2 claim instantiated at one key: every payload round-trips through
encrypt then decrypt under that key. -/
def roundTripAt (c : GCMCipher) (k : List Nat) : Prop :=
  ∀ iv p : List Nat, (encryptGCM c k iv p).bind (decryptGCM c k) = some p

/-- Concrete opaque serialisation used to evaluate the model. -/
def enc0 {α : Type} : RPCPacket α → List Nat := fun _ => [0]

/-- Concrete procedure table: a handler that throws "bad input". -/
def procsEx : ProcMap Nat := [(("boom"), fun _ _ => Except.error ("bad input"))]

/-- Concrete wire state with one open socket for webview 5. -/
def openWire : WireState := WireState.mk [(5, Socket.mk 1)] []

/-- Concrete wire state with one non-open socket for webview 7. -/
def closedWire : WireState := WireState.mk [(7, Socket.mk 3)] []

/-- Concrete BrowserView for webview 5. -/
def bv5 : BrowserView := BrowserView.mk 5 key32

/-! ## Theorems -/

theorem lookupKey_eraseKey_self {κ ν : Type} [DecidableEq κ] (l : List (κ × ν))
    (k : κ) : lookupKey (eraseKey l k) k = none := by
  induction l with
  | nil => rfl
  | cons kv rest ih =>
    obtain ⟨k', v⟩ := kv
    by_cases h : k' = k
    · simpa [eraseKey, h] using ih
    · simp [eraseKey, h, lookupKey, ih]

theorem lookupKey_eraseKey_ne {κ ν : Type} [DecidableEq κ] (l : List (κ × ν))
    (k' k : κ) (hne : k' ≠ k) : lookupKey (eraseKey l k') k = lookupKey l k := by
  induction l with
  | nil => rfl
  | cons kv rest ih =>
    obtain ⟨k0, v⟩ := kv
    by_cases h : k0 = k'
    · simp [eraseKey, h, lookupKey, hne, ih]
    · simp [eraseKey, h, lookupKey, ih]

theorem lookupKey_setKey_self {κ ν : Type} [DecidableEq κ] (l : List (κ × ν))
    (k : κ) (v : ν) : lookupKey (setKey l k v) k = some v := by
  induction l with
  | nil => simp [setKey, lookupKey]
  | cons kv rest ih =>
    obtain ⟨k0, v0⟩ := kv
    by_cases h : k0 = k
    · simp [setKey, h, lookupKey]
    · simp [setKey, h, lookupKey, ih]

theorem xorStreamFrom_involutive (ks : Nat → Nat) (l : List Nat) : ∀ i : Nat,
    xorStreamFrom ks i (xorStreamFrom ks i l) = l := by
  induction l with
  | nil => intro i; rfl
  | cons b rest ih =>
    intro i
    simp [xorStreamFrom, ih, Nat.xor_assoc]

/-- C2 counterexample: the claim quantifies over 16-byte keys as well, but
the code builds an aes-256-gcm cipher, and `createCipheriv` rejects any key
that is not exactly 32 bytes, so `encrypt` throws on a 16-byte key and no
envelope round-trips. -/
theorem c2_sixteen_byte_key_fails :
    key16.length = 16 ∧ ¬ roundTripAt zeroCipher key16 := by
  refine ⟨by decide, fun h => ?_⟩
  have h0 := h [] []
  simp [encryptGCM, key16] at h0

/-- C2 amended: for every payload and every 32-byte key (and any keystream
and tag functions, hence for the real AES-256-GCM), feeding the envelope
produced by encrypt back through decrypt under the same key returns exactly
the payload. -/
theorem c2_roundtrip_aes256 (c : GCMCipher) (k iv p : List Nat)
    (hk : k.length = 32) :
    (encryptGCM c k iv p).bind (decryptGCM c k) = some p := by
  simp [encryptGCM, hk, decryptGCM, xorStream, xorStreamFrom_involutive]

theorem c2_roundtrip_aes256_witness :
    key32.length = 32 ∧
      (encryptGCM zeroCipher key32 [] [1, 2, 3]).bind (decryptGCM zeroCipher key32) =
        some [1, 2, 3] :=
  ⟨by decide, c2_roundtrip_aes256 zeroCipher key32 [] [1, 2, 3] (by decide)⟩

/-- C5: a Response whose id matches no pendingRequests entry is silently
dropped by handleIncomingPacket — no callback effect is emitted and the
whole caller state (pending map and message-handler router) is unchanged. -/
theorem c5_unknown_response_dropped {α : Type} (st : EdenState)
    (r : RPCResponse α) (h : lookupKey st.pending r.id = none) :
    handleIncomingPacket st (RPCPacket.response r) = (st, []) := by
  simp [handleIncomingPacket, h]

theorem c5_unknown_response_dropped_witness :
    handleIncomingPacket edenInit
        (RPCPacket.response (RPCResponse.mk ("late") (some (7 : Nat)) none)) =
      (edenInit, []) :=
  c5_unknown_response_dropped edenInit (RPCResponse.mk ("late") (some 7) none) rfl

/-- C10: a Response matching a pending entry rejects it iff its `error`
field is a non-empty string; an `error` of `""` (with or without a result)
takes the resolve path with the `result` value, as does an absent `error`. -/
theorem c10_reject_iff_nonempty_error {α : Type} (st : EdenState)
    (r : RPCResponse α) (armed : Bool)
    (h : lookupKey st.pending r.id = some armed) :
    ((∃ e, (handleIncomingPacket st (RPCPacket.response r)).2 =
        [EdenEffect.rejectedRemote r.id e]) ↔ ∃ e, r.error = some e ∧ e ≠ "")
    ∧ (r.error = some "" →
        (handleIncomingPacket st (RPCPacket.response r)).2 =
          [EdenEffect.resolved r.id r.result])
    ∧ (r.error = none →
        (handleIncomingPacket st (RPCPacket.response r)).2 =
          [EdenEffect.resolved r.id r.result]) := by
  cases he : r.error with
  | none =>
    simp [handleIncomingPacket, h, he]
  | some e =>
    by_cases h0 : e = ""
    · subst h0
      simp [handleIncomingPacket, h, he]
    · simp [handleIncomingPacket, h, he, h0]

theorem c10_reject_iff_nonempty_error_witness :
    ((∃ e, (handleIncomingPacket (callStart edenInit ("r1"))
        (RPCPacket.response (RPCResponse.mk ("r1") (some (5 : Nat)) (some ("")))) ).2 =
          [EdenEffect.rejectedRemote ("r1") e]) ↔ ∃ e, (some ("") = some e ∧ e ≠ ""))
    ∧ (handleIncomingPacket (callStart edenInit ("r1"))
        (RPCPacket.response (RPCResponse.mk ("r1") (some (5 : Nat)) (some ("")))) ).2 =
        [EdenEffect.resolved ("r1") (some 5)] := by
  have h := c10_reject_iff_nonempty_error (callStart edenInit ("r1"))
    (RPCResponse.mk ("r1") (some (5 : Nat)) (some (""))) true
    (lookupKey_setKey_self [] ("r1") true)
  exact ⟨h.1, h.2.1 rfl⟩

theorem scanFrom_all_inUse (bind : Nat → BindResult) : ∀ (n port : Nat),
    (∀ q, port ≤ q → q < port + n → bind q = BindResult.inUse) →
    scanFrom bind port n = Except.error StartError.noAvailablePorts := by
  intro n
  induction n with
  | zero => intro port _; rfl
  | succ n ih =>
    intro port h
    have hport : bind port = BindResult.inUse := h port (Nat.le_refl port) (by omega)
    have hrest := ih (port + 1) (fun q h1 h2 => h q (by omega) (by omega))
    simp [scanFrom, hport, hrest]

theorem scanFrom_first_fit (bind : Nat → BindResult) : ∀ (n port p : Nat),
    port ≤ p → p < port + n → bind p = BindResult.ok →
    (∀ q, port ≤ q → q < p → bind q = BindResult.inUse) →
    scanFrom bind port n = Except.ok p := by
  intro n
  induction n with
  | zero => intro port p h1 h2; omega
  | succ n ih =>
    intro port p h1 h2 hp hq
    by_cases h0 : port = p
    · subst h0
      simp [scanFrom, hp]
    · have hbusy : bind port = BindResult.inUse := hq port (Nat.le_refl port) (by omega)
      have hrest := ih (port + 1) p (by omega) (by omega) hp
        (fun q hq1 hq2 => hq q (by omega) hq2)
      simp [scanFrom, hbusy, hrest]

theorem scanFrom_ok_bounds (bind : Nat → BindResult) : ∀ (n port p : Nat),
    scanFrom bind port n = Except.ok p → port ≤ p ∧ p < port + n := by
  intro n
  induction n with
  | zero => intro port p h; simp [scanFrom] at h
  | succ n ih =>
    intro port p h
    cases hb : bind port with
    | ok =>
      simp [scanFrom, hb] at h
      omega
    | inUse =>
      simp [scanFrom, hb] at h
      have := ih (port + 1) p h
      omega
    | otherErr e => simp [scanFrom, hb] at h

/-- C7: startServer starts at port 50000 and increments past each
address-in-use failure; it returns the first bindable port of 50000..65535
and stores it in the serverPort variable, and when the whole range is in use
it throws the no-available-ports error (and, being a bounded scan, it
terminates rather than hanging, and never returns an out-of-range port). -/
theorem c7_port_scan (bind : Nat → BindResult) :
    ((∀ p, 50000 ≤ p → p ≤ 65535 → bind p = BindResult.inUse) →
      startServer bind = Except.error StartError.noAvailablePorts)
    ∧ (∀ p, 50000 ≤ p → p ≤ 65535 → bind p = BindResult.ok →
        (∀ q, 50000 ≤ q → q < p → bind q = BindResult.inUse) →
        startServer bind = Except.ok p ∧ (startServerState bind 0).2 = p)
    ∧ (∀ p, startServer bind = Except.ok p → 50000 ≤ p ∧ p ≤ 65535) := by
  refine ⟨fun h => ?_, fun p h1 h2 hp hq => ?_, fun p h => ?_⟩
  · exact scanFrom_all_inUse bind 15536 50000 (fun q hq1 hq2 => h q hq1 (by omega))
  · have hok : startServer bind = Except.ok p :=
      scanFrom_first_fit bind 15536 50000 p h1 (by omega) hp hq
    refine ⟨hok, ?_⟩
    simp [startServerState, hok]
  · have := scanFrom_ok_bounds bind 15536 50000 p h
    omega

/-- All ports busy: the exhaustion scenario environment. -/
def allBusy : Nat → BindResult := fun _ => BindResult.inUse

/-- Ports below 50002 busy, the rest bindable. -/
def busyBelow : Nat → BindResult := fun p =>
  if p < 50002 then BindResult.inUse else BindResult.ok

theorem c7_port_scan_witness :
    startServer allBusy = Except.error StartError.noAvailablePorts
    ∧ startServer busyBelow = Except.ok 50002
    ∧ (startServerState busyBelow 0).2 = 50002 := by
  have hall := (c7_port_scan allBusy).1 (fun p _ _ => rfl)
  have hfit := (c7_port_scan busyBelow).2.1 50002 (by omega) (by omega)
    (by simp [busyBelow])
    (fun q h1 h2 => by simp [busyBelow, h2])
  exact ⟨hall, hfit.1, hfit.2⟩

/-- C8: sending to a peer id that is unknown or detached (no socket, or no
BrowserView) or whose socket is not open returns false from both
sendMessageToWebviewViaSocket and sendToWebview, with the wire state
untouched; both are total functions, so nothing is thrown. -/
theorem c8_send_soft_fail {α : Type} (c : GCMCipher) (enc : RPCPacket α → List Nat)
    (views : List (Nat × BrowserView)) (st : WireState) (webviewId : Nat)
    (iv : List Nat) (message : RPCPacket α) (bv : BrowserView) (p : RPCPacket α)
    (h1 : ∀ s : Socket, lookupKey st.socketMap webviewId = some s →
        ∀ b : BrowserView, lookupKey views webviewId = some b → s.readyState ≠ 1)
    (h2 : ∀ s : Socket, lookupKey st.socketMap bv.id = some s → s.readyState ≠ 1) :
    sendMessageToWebviewViaSocket c enc views st webviewId iv message = (false, st)
    ∧ sendToWebview c enc st bv iv p = (false, st) := by
  constructor
  · cases hs : lookupKey st.socketMap webviewId with
    | none => simp [sendMessageToWebviewViaSocket, hs]
    | some s =>
      cases hb : lookupKey views webviewId with
      | none => simp [sendMessageToWebviewViaSocket, hs, hb]
      | some b => simp [sendMessageToWebviewViaSocket, hs, hb, h1 s hs b hb]
  · cases hs : lookupKey st.socketMap bv.id with
    | none => simp [sendToWebview, hs]
    | some s => simp [sendToWebview, hs, h2 s hs]

theorem c8_send_soft_fail_witness :
    sendMessageToWebviewViaSocket zeroCipher enc0 [(7, BrowserView.mk 7 key32)]
        closedWire 7 [] (RPCPacket.message (RPCMessage.mk ("ping") (0 : Nat))) =
      (false, closedWire)
    ∧ sendToWebview zeroCipher enc0 closedWire (BrowserView.mk 9 key32) []
        (RPCPacket.message (RPCMessage.mk ("ping") (0 : Nat))) =
      (false, closedWire) := by
  refine c8_send_soft_fail zeroCipher enc0 [(7, BrowserView.mk 7 key32)] closedWire 7
    [] (RPCPacket.message (RPCMessage.mk ("ping") (0 : Nat)))
    (BrowserView.mk 9 key32) (RPCPacket.message (RPCMessage.mk ("ping") (0 : Nat)))
    ?_ ?_
  · intro s hs b hb
    simp [closedWire, lookupKey] at hs
    subst hs
    decide
  · intro s hs
    simp [closedWire, lookupKey] at hs

theorem sendToWebview_open {α : Type} (c : GCMCipher) (enc : RPCPacket α → List Nat)
    (st : WireState) (bv : BrowserView) (iv : List Nat) (p : RPCPacket α)
    (s : Socket) (hs : lookupKey st.socketMap bv.id = some s)
    (hopen : s.readyState = 1) (hk : bv.secretKey.length = 32) :
    ∃ env, encryptGCM c bv.secretKey iv (enc p) = some env
      ∧ sendToWebview c enc st bv iv p =
        (true, WireState.mk st.socketMap (st.sent ++ [(bv.id, env)])) := by
  refine ⟨Envelope.mk (xorStream c bv.secretKey iv (enc p)) iv
    (c.tagOf bv.secretKey iv (xorStream c bv.secretKey iv (enc p))), ?_, ?_⟩
  · simp [encryptGCM, hk]
  · simp [sendToWebview, hs, hopen, encryptGCM, hk]

/-- C3: dispatching a Request whose method has no registered handler builds
the Response with the same id and error "Unknown procedure: <method>"
without invoking any handler (dispatch is a total function, so no exception
escapes), and exactly one encrypted Response frame goes back to the
originating peer's open socket. -/
theorem c3_unknown_procedure {α : Type} (c : GCMCipher)
    (enc : RPCPacket α → List Nat) (procs : ProcMap α) (st : WireState)
    (bv : BrowserView) (iv : List Nat) (req : RPCRequest α) (s : Socket)
    (hproc : lookupKey procs req.method = none)
    (hs : lookupKey st.socketMap bv.id = some s) (hopen : s.readyState = 1)
    (hk : bv.secretKey.length = 32) :
    (handleRequest c enc procs st bv iv req).response =
        RPCResponse.mk req.id none (some ("Unknown procedure: " ++ req.method))
    ∧ (handleRequest c enc procs st bv iv req).invoked = false
    ∧ (handleRequest c enc procs st bv iv req).delivered = true
    ∧ ∃ env, encryptGCM c bv.secretKey iv (enc (RPCPacket.response
          (RPCResponse.mk req.id none (some ("Unknown procedure: " ++ req.method))))) =
        some env
      ∧ (handleRequest c enc procs st bv iv req).wire.sent =
          st.sent ++ [(bv.id, env)] := by
  obtain ⟨env, henv, hsend⟩ := sendToWebview_open c enc st bv iv
    (RPCPacket.response (RPCResponse.mk req.id none
      (some ("Unknown procedure: " ++ req.method)))) s hs hopen hk
  have hcore : handleRequestCore procs bv.id req =
      (RPCResponse.mk req.id none (some ("Unknown procedure: " ++ req.method)), false) := by
    simp [handleRequestCore, hproc]
  refine ⟨?_, ?_, ?_, env, henv, ?_⟩ <;>
    simp [handleRequest, hcore, hsend]

theorem c3_unknown_procedure_witness :
    (handleRequest zeroCipher enc0 procsEx openWire bv5 []
        (RPCRequest.mk ("id1") ("nope") (0 : Nat))).response =
      RPCResponse.mk ("id1") none (some ("Unknown procedure: " ++ "nope"))
    ∧ (handleRequest zeroCipher enc0 procsEx openWire bv5 []
        (RPCRequest.mk ("id1") ("nope") (0 : Nat))).invoked = false
    ∧ (handleRequest zeroCipher enc0 procsEx openWire bv5 []
        (RPCRequest.mk ("id1") ("nope") (0 : Nat))).delivered = true := by
  have h := c3_unknown_procedure zeroCipher enc0 procsEx openWire bv5 []
    (RPCRequest.mk ("id1") ("nope") (0 : Nat)) (Socket.mk 1) rfl rfl rfl (by decide)
  exact ⟨h.1, h.2.1, h.2.2.1⟩

/-- C4: when the registered handler throws (models a thrown or rejected
error with message `msg`), dispatch catches it and builds a Response with
the same id carrying that message as its error; the error does not escape
(dispatch is total and the Response is fully determined), and exactly one
Response frame is sent back, encrypted under the originating peer's
secretKey. -/
theorem c4_handler_error_contained {α : Type} (c : GCMCipher)
    (enc : RPCPacket α → List Nat) (procs : ProcMap α) (st : WireState)
    (bv : BrowserView) (iv : List Nat) (req : RPCRequest α)
    (h : α → Nat → Except String α) (msg : String) (s : Socket)
    (hproc : lookupKey procs req.method = some h)
    (hthrow : h req.params bv.id = Except.error msg)
    (hs : lookupKey st.socketMap bv.id = some s) (hopen : s.readyState = 1)
    (hk : bv.secretKey.length = 32) :
    (handleRequest c enc procs st bv iv req).response =
        RPCResponse.mk req.id none (some msg)
    ∧ (handleRequest c enc procs st bv iv req).invoked = true
    ∧ (handleRequest c enc procs st bv iv req).delivered = true
    ∧ ∃ env, encryptGCM c bv.secretKey iv
          (enc (RPCPacket.response (RPCResponse.mk req.id none (some msg)))) = some env
      ∧ (handleRequest c enc procs st bv iv req).wire.sent =
          st.sent ++ [(bv.id, env)] := by
  obtain ⟨env, henv, hsend⟩ := sendToWebview_open c enc st bv iv
    (RPCPacket.response (RPCResponse.mk req.id none (some msg))) s hs hopen hk
  have hcore : handleRequestCore procs bv.id req =
      (RPCResponse.mk req.id none (some msg), true) := by
    simp [handleRequestCore, hproc, hthrow]
  refine ⟨?_, ?_, ?_, env, henv, ?_⟩ <;>
    simp [handleRequest, hcore, hsend]

theorem c4_handler_error_contained_witness :
    (handleRequest zeroCipher enc0 procsEx openWire bv5 []
        (RPCRequest.mk ("id2") ("boom") (0 : Nat))).response =
      RPCResponse.mk ("id2") none (some ("bad input"))
    ∧ (handleRequest zeroCipher enc0 procsEx openWire bv5 []
        (RPCRequest.mk ("id2") ("boom") (0 : Nat))).invoked = true
    ∧ (handleRequest zeroCipher enc0 procsEx openWire bv5 []
        (RPCRequest.mk ("id2") ("boom") (0 : Nat))).delivered = true := by
  have h := c4_handler_error_contained zeroCipher enc0 procsEx openWire bv5 []
    (RPCRequest.mk ("id2") ("boom") (0 : Nat))
    (fun _ _ => Except.error ("bad input")) ("bad input") (Socket.mk 1)
    rfl rfl rfl rfl (by decide)
  exact ⟨h.1, h.2.1, h.2.2.1⟩

/-- C6 fails on the code: the unsubscribe closure captures the handler Set
object itself, so after its first call has emptied that Set and removed the
"a" entry, and a fresh subscription has re-created "a" with a new Set, the
second call still sees its captured (empty) Set, takes the size-zero branch,
and deletes the map entry now holding the new subscriber.  Evaluated here:
after the re-subscription the router dispatches "a" to handler 2; after the
second unsubscribe call the entry is gone, the router state has changed, and
an incoming "a" message runs no handler. -/
theorem c6_second_unsubscribe_removes_fresh_entry :
    handlersFor c6Resub ("a") = [2]
    ∧ handlersFor c6AfterSecondUnsub ("a") = []
    ∧ c6AfterSecondUnsub ≠ c6Resub
    ∧ (handleIncomingPacket (EdenState.mk [] c6Resub)
        (RPCPacket.message (RPCMessage.mk ("a") (0 : Nat)))).2 =
      [EdenEffect.ranHandler 2 ("a") 0]
    ∧ (handleIncomingPacket (EdenState.mk [] c6AfterSecondUnsub)
        (RPCPacket.message (RPCMessage.mk ("a") (0 : Nat)))).2 = [] := by
  decide

theorem digitChar_inj_lt10 :
    ∀ a, a < 10 → ∀ b, b < 10 → Nat.digitChar a = Nat.digitChar b → a = b := by
  decide

theorem digitChar_ne_underscore : ∀ a, a < 10 → Nat.digitChar a ≠ '_' := by
  decide

theorem natDecimal_no_underscore (n : Nat) : '_' ∉ natDecimal n := by
  unfold natDecimal
  by_cases h : n = 0
  · simp [h]
  · rw [if_neg h]
    intro hmem
    rw [List.mem_reverse] at hmem
    obtain ⟨d, hd, hchar⟩ := List.mem_map.mp hmem
    exact digitChar_ne_underscore d (Nat.digits_lt_base (by norm_num) hd) hchar

theorem map_digitChar_inj : ∀ l1 l2 : List Nat, (∀ d ∈ l1, d < 10) →
    (∀ d ∈ l2, d < 10) →
    List.map Nat.digitChar l1 = List.map Nat.digitChar l2 → l1 = l2 := by
  intro l1
  induction l1 with
  | nil =>
    intro l2 _ _ h
    cases l2 with
    | nil => rfl
    | cons b bs => simp at h
  | cons a as ih =>
    intro l2 h1 h2 h
    cases l2 with
    | nil => simp at h
    | cons b bs =>
      simp only [List.map_cons, List.cons.injEq] at h
      obtain ⟨hab, hrest⟩ := h
      have hb : a = b := digitChar_inj_lt10 a (h1 a (List.mem_cons_self a as)) b
        (h2 b (List.mem_cons_self b bs)) hab
      rw [hb, ih bs (fun d hd => h1 d (List.mem_cons_of_mem a hd))
        (fun d hd => h2 d (List.mem_cons_of_mem b hd)) hrest]

theorem natDecimal_inj {m n : Nat} (h : natDecimal m = natDecimal n) : m = n := by
  have digitsEq : ∀ k : Nat, k ≠ 0 →
      List.map Nat.digitChar (Nat.digits 10 k) = ['0'] → False := by
    intro k hk hmap
    cases hd : Nat.digits 10 k with
    | nil => rw [hd] at hmap; simp at hmap
    | cons d ds =>
      rw [hd] at hmap
      simp only [List.map_cons, List.cons.injEq, List.map_eq_nil_iff] at hmap
      obtain ⟨hdc, hds⟩ := hmap
      have hdlt : d < 10 :=
        Nat.digits_lt_base (by norm_num) (hd ▸ List.mem_cons_self d ds)
      have hd0 : d = 0 := digitChar_inj_lt10 d hdlt 0 (by norm_num) (by rw [hdc]; rfl)
      have := Nat.ofDigits_digits 10 k
      rw [hd, hds, hd0] at this
      simp [Nat.ofDigits] at this
      exact hk this.symm
  unfold natDecimal at h
  by_cases hm : m = 0 <;> by_cases hn : n = 0
  · rw [hm, hn]
  · rw [if_pos hm, if_neg hn] at h
    have h' := congrArg List.reverse h
    simp only [List.reverse_reverse, List.reverse_cons, List.reverse_nil,
      List.nil_append] at h'
    exact absurd h'.symm fun hx => digitsEq n hn hx
  · rw [if_neg hm, if_pos hn] at h
    have h' := congrArg List.reverse h
    simp only [List.reverse_reverse, List.reverse_cons, List.reverse_nil,
      List.nil_append] at h'
    exact absurd h' fun hx => digitsEq m hm hx
  · rw [if_neg hm, if_neg hn] at h
    have h' := congrArg List.reverse h
    simp only [List.reverse_reverse] at h'
    have hdig := map_digitChar_inj (Nat.digits 10 m) (Nat.digits 10 n)
      (fun d hd => Nat.digits_lt_base (by norm_num) hd)
      (fun d hd => Nat.digits_lt_base (by norm_num) hd) h'
    have hm' := Nat.ofDigits_digits 10 m
    rw [hdig, Nat.ofDigits_digits 10 n] at hm'
    exact hm'.symm

theorem sep_split : ∀ a b x y : List Char, '_' ∉ a → '_' ∉ b →
    a ++ '_' :: x = b ++ '_' :: y → a = b ∧ x = y := by
  intro a
  induction a with
  | nil =>
    intro b x y _ hb h
    cases b with
    | nil =>
      simp only [List.nil_append, List.cons.injEq] at h
      exact ⟨rfl, h.2⟩
    | cons c cs =>
      simp only [List.nil_append, List.cons_append, List.cons.injEq] at h
      exact absurd (h.1 ▸ List.mem_cons_self c cs) hb
  | cons c cs ih =>
    intro b x y ha hb h
    cases b with
    | nil =>
      simp only [List.nil_append, List.cons_append, List.cons.injEq] at h
      exact absurd (h.1.symm ▸ List.mem_cons_self c cs) ha
    | cons d ds =>
      simp only [List.cons_append, List.cons.injEq] at h
      obtain ⟨hcd, hrest⟩ := h
      have hatail : '_' ∉ cs := fun hx => ha (List.mem_cons_of_mem c hx)
      have hbtail : '_' ∉ ds := fun hx => hb (List.mem_cons_of_mem d hx)
      obtain ⟨he, hxy⟩ := ih ds x y hatail hbtail hrest
      exact ⟨by rw [hcd, he], hxy⟩

theorem requestIdString_ne {c1 t1 c2 t2 : Nat} (h : c1 ≠ c2) :
    requestIdString c1 t1 ≠ requestIdString c2 t2 := by
  intro heq
  unfold requestIdString at heq
  have hl : ['r', 'e', 'q', '_'] ++ (natDecimal c1 ++ '_' :: natDecimal t1) =
      ['r', 'e', 'q', '_'] ++ (natDecimal c2 ++ '_' :: natDecimal t2) := by
    injection heq
  have htail := List.append_cancel_left hl
  obtain ⟨hc, -⟩ := sep_split (natDecimal c1) (natDecimal c2)
    (natDecimal t1) (natDecimal t2)
    (natDecimal_no_underscore c1) (natDecimal_no_underscore c2) htail
  exact h (natDecimal_inj hc)

theorem mem_idsFrom : ∀ (ts : List Nat) (c : Nat) (s : String),
    s ∈ idsFrom c ts → ∃ k t, c ≤ k ∧ s = requestIdString (k + 1) t := by
  intro ts
  induction ts with
  | nil => intro c s h; simp [idsFrom] at h
  | cons t ts ih =>
    intro c s h
    simp only [idsFrom, generateRequestId, List.mem_cons] at h
    cases h with
    | inl h => exact ⟨c, t, Nat.le_refl c, h⟩
    | inr h =>
      obtain ⟨k, t', hk, hs⟩ := ih (c + 1) s h
      exact ⟨k, t', by omega, hs⟩

theorem idsFrom_pairwise_ne : ∀ (ts : List Nat) (counter : Nat),
    (idsFrom counter ts).Pairwise (fun a b => a ≠ b) := by
  intro ts
  induction ts with
  | nil => intro c; exact List.Pairwise.nil
  | cons t ts ih =>
    intro c
    refine List.Pairwise.cons ?_ (ih (c + 1))
    intro s hs heq
    obtain ⟨k, t', hk, hsid⟩ := mem_idsFrom ts (c + 1) s hs
    rw [hsid] at heq
    exact requestIdString_ne (show c + 1 ≠ k + 1 by omega) heq

/-- C9: within one process run (the counter threaded from call to call, one
arbitrary timestamp per call), any two distinct calls of generateRequestId
return distinct id strings, and every call strictly increases the embedded
counter by one, so ids never repeat in a caller's lifetime. -/
theorem c9_request_ids_distinct :
    (∀ (counter : Nat) (ts : List Nat),
      (idsFrom counter ts).Pairwise (fun a b => a ≠ b))
    ∧ ∀ (counter now : Nat), (generateRequestId counter now).2 = counter + 1 :=
  ⟨fun counter ts => idsFrom_pairwise_ne ts counter, fun _ _ => rfl⟩

theorem filter_settlement_ranHandler {α : Type} (id n : String) (p : α)
    (l : List Nat) :
    List.filter (isSettlementFor id) (l.map fun h => EdenEffect.ranHandler h n p) =
      [] := by
  induction l with
  | nil => rfl
  | cons a as ih => simp [List.filter_cons, isSettlementFor, ih]

theorem filter_settlement_ranWildcard {α : Type} (id n : String) (p : α)
    (l : List Nat) :
    List.filter (isSettlementFor id) (l.map fun h => EdenEffect.ranWildcard h n p) =
      [] := by
  induction l with
  | nil => rfl
  | cons a as ih => simp [List.filter_cons, isSettlementFor, ih]

theorem filter_settlement_message {α : Type} (id : String) (st : EdenState)
    (m : RPCMessage α) :
    List.filter (isSettlementFor id)
      (handleIncomingPacket st (RPCPacket.message m)).2 = [] := by
  simp only [handleIncomingPacket]
  rw [List.filter_append, filter_settlement_ranHandler, filter_settlement_ranWildcard]
  rfl

theorem edenStep_absent {α : Type} (st : EdenState) (id : String)
    (h : lookupKey st.pending id = none) (e : EdenEvent α) :
    List.filter (isSettlementFor id) (edenStep st e).2 = []
    ∧ lookupKey (edenStep st e).1.pending id = none := by
  cases e with
  | incoming p =>
    cases p with
    | request r => exact ⟨rfl, h⟩
    | message m => exact ⟨filter_settlement_message id st m, h⟩
    | response r =>
      by_cases hr : r.id = id
      · have h' : lookupKey st.pending r.id = none := by rw [hr]; exact h
        simp [edenStep, handleIncomingPacket, h', h]
      · cases hl : lookupKey st.pending r.id with
        | none => simp [edenStep, handleIncomingPacket, hl, h]
        | some v =>
          have hkeep := lookupKey_eraseKey_ne st.pending r.id id hr
          cases herr : r.error with
          | none =>
            simp [edenStep, handleIncomingPacket, hl, herr, List.filter_cons,
              isSettlementFor, hr, hkeep, h]
          | some e0 =>
            by_cases h0 : e0 = "" <;>
              simp [edenStep, handleIncomingPacket, hl, herr, h0, List.filter_cons,
                isSettlementFor, hr, hkeep, h]
  | timerFire i m =>
    by_cases hi : i = id
    · rw [hi]
      simp [edenStep, h]
    · cases hl : lookupKey st.pending i with
      | none => simp [edenStep, hl, h]
      | some armed =>
        cases armed with
        | false => simp [edenStep, hl, h]
        | true =>
          have hkeep := lookupKey_eraseKey_ne st.pending i id hi
          simp [edenStep, hl, List.filter_cons, isSettlementFor, hi, hkeep, h]
  | sendFail i =>
    by_cases hi : i = id
    · rw [hi]
      simp [edenStep, h]
    · cases hl : lookupKey st.pending i with
      | none => simp [edenStep, hl, h]
      | some v =>
        have hkeep := lookupKey_eraseKey_ne st.pending i id hi
        simp [edenStep, hl, List.filter_cons, isSettlementFor, hkeep, h]

theorem edenStep_present_nonsettling {α : Type} (st : EdenState) (id : String)
    (h : lookupKey st.pending id = some true) (e : EdenEvent α)
    (hset : isSettlingEventFor id e = false) (hsf : isSendFailFor id e = false) :
    List.filter (isSettlementFor id) (edenStep st e).2 = []
    ∧ lookupKey (edenStep st e).1.pending id = some true := by
  cases e with
  | incoming p =>
    cases p with
    | request r => exact ⟨rfl, h⟩
    | message m => exact ⟨filter_settlement_message id st m, h⟩
    | response r =>
      have hr : ¬ (r.id = id) := by simpa [isSettlingEventFor] using hset
      cases hl : lookupKey st.pending r.id with
      | none => simp [edenStep, handleIncomingPacket, hl, h]
      | some v =>
        have hkeep := lookupKey_eraseKey_ne st.pending r.id id hr
        cases herr : r.error with
        | none =>
          simp [edenStep, handleIncomingPacket, hl, herr, List.filter_cons,
            isSettlementFor, hr, hkeep, h]
        | some e0 =>
          by_cases h0 : e0 = "" <;>
            simp [edenStep, handleIncomingPacket, hl, herr, h0, List.filter_cons,
              isSettlementFor, hr, hkeep, h]
  | timerFire i m =>
    have hi : ¬ (i = id) := by simpa [isSettlingEventFor] using hset
    cases hl : lookupKey st.pending i with
    | none => simp [edenStep, hl, h]
    | some armed =>
      cases armed with
      | false => simp [edenStep, hl, h]
      | true =>
        have hkeep := lookupKey_eraseKey_ne st.pending i id hi
        simp [edenStep, hl, List.filter_cons, isSettlementFor, hi, hkeep, h]
  | sendFail i =>
    have hi : ¬ (i = id) := by simpa [isSendFailFor] using hsf
    cases hl : lookupKey st.pending i with
    | none => simp [edenStep, hl, h]
    | some v =>
      have hkeep := lookupKey_eraseKey_ne st.pending i id hi
      simp [edenStep, hl, List.filter_cons, isSettlementFor, hkeep, h]

theorem edenStep_present_settling {α : Type} (st : EdenState) (id : String)
    (h : lookupKey st.pending id = some true) (e : EdenEvent α)
    (hset : isSettlingEventFor id e = true) :
    (List.filter (isSettlementFor id) (edenStep st e).2).length = 1
    ∧ lookupKey (edenStep st e).1.pending id = none := by
  cases e with
  | incoming p =>
    cases p with
    | request r => simp [isSettlingEventFor] at hset
    | message m => simp [isSettlingEventFor] at hset
    | response r =>
      have hr : r.id = id := by simpa [isSettlingEventFor] using hset
      subst hr
      cases herr : r.error with
      | none =>
        simp [edenStep, handleIncomingPacket, h, herr, List.filter_cons,
          isSettlementFor, lookupKey_eraseKey_self]
      | some e0 =>
        by_cases h0 : e0 = "" <;>
          simp [edenStep, handleIncomingPacket, h, herr, h0, List.filter_cons,
            isSettlementFor, lookupKey_eraseKey_self]
  | timerFire i m =>
    have hi : i = id := by simpa [isSettlingEventFor] using hset
    subst hi
    simp [edenStep, h, List.filter_cons, isSettlementFor, lookupKey_eraseKey_self]
  | sendFail i => simp [isSettlingEventFor] at hset

theorem edenRun_absent {α : Type} (id : String) :
    ∀ (evs : List (EdenEvent α)) (st : EdenState),
    lookupKey st.pending id = none →
    List.filter (isSettlementFor id) (edenRun st evs).2 = []
    ∧ lookupKey (edenRun st evs).1.pending id = none := by
  intro evs
  induction evs with
  | nil => intro st h; exact ⟨rfl, h⟩
  | cons e evs ih =>
    intro st h
    obtain ⟨hf, hst⟩ := edenStep_absent st id h e
    obtain ⟨hf', hst'⟩ := ih (edenStep st e).1 hst
    constructor
    · simp [edenRun, List.filter_append, hf, hf']
    · simpa [edenRun] using hst'

theorem edenRun_present {α : Type} (id : String) :
    ∀ (evs : List (EdenEvent α)) (st : EdenState),
    lookupKey st.pending id = some true →
    (∀ e ∈ evs, isSendFailFor id e = false) →
    (evs.any (isSettlingEventFor id) = true →
      (List.filter (isSettlementFor id) (edenRun st evs).2).length = 1
      ∧ lookupKey (edenRun st evs).1.pending id = none)
    ∧ (evs.any (isSettlingEventFor id) = false →
      List.filter (isSettlementFor id) (edenRun st evs).2 = []
      ∧ lookupKey (edenRun st evs).1.pending id = some true) := by
  intro evs
  induction evs with
  | nil =>
    intro st h _
    refine ⟨fun hany => ?_, fun _ => ⟨rfl, h⟩⟩
    simp at hany
  | cons e evs ih =>
    intro st h hsf
    by_cases hse : isSettlingEventFor id e = true
    · obtain ⟨hlen, hnone⟩ := edenStep_present_settling st id h e hse
      obtain ⟨hf', hst'⟩ := edenRun_absent id evs (edenStep st e).1 hnone
      refine ⟨fun _ => ⟨?_, ?_⟩, fun hany => ?_⟩
      · simp [edenRun, List.filter_append, hf', hlen]
      · simpa [edenRun] using hst'
      · rw [List.any_cons, hse] at hany
        simp at hany
    · have hse' : isSettlingEventFor id e = false := by simpa using hse
      obtain ⟨hf, hkeep⟩ := edenStep_present_nonsettling st id h e hse'
        (hsf e (List.mem_cons_self e evs))
      have ihx := ih (edenStep st e).1 hkeep
        (fun e' he' => hsf e' (List.mem_cons_of_mem e he'))
      refine ⟨fun hany => ?_, fun hany => ?_⟩
      · have hany' : evs.any (isSettlingEventFor id) = true := by
          rw [List.any_cons, hse'] at hany
          simpa using hany
        obtain ⟨hlen, hnone⟩ := ihx.1 hany'
        exact ⟨by simp [edenRun, List.filter_append, hf, hlen],
          by simpa [edenRun] using hnone⟩
      · have hany' : evs.any (isSettlingEventFor id) = false := by
          rw [List.any_cons, hse'] at hany
          simpa using hany
        obtain ⟨hnilf, hsome⟩ := ihx.2 hany'
        exact ⟨by simp [edenRun, List.filter_append, hf, hnilf],
          by simpa [edenRun] using hsome⟩

/-- C1 counterexample to the claim as stated: the code has a fourth
settlement path, `sendPacket(request).catch` (eden.ts lines 192-196, inside
the claim's cited range), reachable whenever the socket is not open at call
time.  Evaluated at the concrete run where the send fails and then the
timer attempt and a matching Response both follow: the only effect of the
whole run is the local send-error rejection — zero of the three claimed
settlements {resolve, reject-remote, reject-timeout} ever fire, falsifying
"never zero" — and the entry is removed (its timer cleared), so the
subsequent timer and Response events are no-ops. -/
theorem c1_send_failure_settles_none :
    (edenRun (callStart edenInit ("r1"))
      [(EdenEvent.sendFail ("r1") : EdenEvent Nat),
        EdenEvent.timerFire ("r1") ("slow"),
        EdenEvent.incoming (RPCPacket.response
          (RPCResponse.mk ("r1") (some (3 : Nat)) none))]).2 =
      [EdenEffect.rejectedSend ("r1")]
    ∧ List.filter (isSettlementFor ("r1"))
        (edenRun (callStart edenInit ("r1"))
          [(EdenEvent.sendFail ("r1") : EdenEvent Nat),
            EdenEvent.timerFire ("r1") ("slow"),
            EdenEvent.incoming (RPCPacket.response
              (RPCResponse.mk ("r1") (some (3 : Nat)) none))]).2 = []
    ∧ lookupKey (edenRun (callStart edenInit ("r1"))
        [(EdenEvent.sendFail ("r1") : EdenEvent Nat),
          EdenEvent.timerFire ("r1") ("slow"),
          EdenEvent.incoming (RPCPacket.response
            (RPCResponse.mk ("r1") (some (3 : Nat)) none))]).1.pending ("r1") =
      none := by
  decide

/-- C1 as amended: for the Pending Request registered by callProcedure, when
the sendPacket promise does not reject, exactly one of the three settlements
resolve / reject-remote / reject-timeout fires over any event sequence in
which a matching Response arrives or the deadline timer fires — never zero,
never more than one, even with a Response and the timeout racing — and
afterwards the entry is gone from pendingRequests (its timer cleared with
it), so any further event produces no settlement for that id.  (When
sendPacket rejects, the request is instead settled once by the local
send-error rejection, which likewise clears the timer and removes the
entry, and none of the three listed settlements fires — see the
counterexample.) -/
theorem c1_exactly_once_settlement {α : Type} (st0 : EdenState) (id : String)
    (evs : List (EdenEvent α))
    (hnosend : ∀ e ∈ evs, isSendFailFor id e = false)
    (hsettle : evs.any (isSettlingEventFor id) = true) :
    (List.filter (isSettlementFor id) (edenRun (callStart st0 id) evs).2).length = 1
    ∧ lookupKey (edenRun (callStart st0 id) evs).1.pending id = none
    ∧ ∀ e : EdenEvent α, List.filter (isSettlementFor id)
        (edenStep (edenRun (callStart st0 id) evs).1 e).2 = [] := by
  have h0 : lookupKey (callStart st0 id).pending id = some true :=
    lookupKey_setKey_self st0.pending id true
  obtain ⟨hlen, hnone⟩ :=
    (edenRun_present id evs (callStart st0 id) h0 hnosend).1 hsettle
  exact ⟨hlen, hnone, fun e => (edenStep_absent _ id hnone e).1⟩

theorem c1_exactly_once_settlement_witness :
    (List.filter (isSettlementFor ("r1"))
      (edenRun (callStart edenInit ("r1"))
        [EdenEvent.timerFire ("r1") ("slow"),
          EdenEvent.incoming (RPCPacket.response
            (RPCResponse.mk ("r1") (some (3 : Nat)) none))]).2).length = 1
    ∧ lookupKey (edenRun (callStart edenInit ("r1"))
        [EdenEvent.timerFire ("r1") ("slow"),
          EdenEvent.incoming (RPCPacket.response
            (RPCResponse.mk ("r1") (some (3 : Nat)) none))]).1.pending ("r1") =
      none := by
  have h := c1_exactly_once_settlement edenInit ("r1")
    [EdenEvent.timerFire ("r1") ("slow"),
      EdenEvent.incoming (RPCPacket.response
        (RPCResponse.mk ("r1") (some (3 : Nat)) none))]
    (by decide) (by decide)
  exact ⟨h.1, h.2.1⟩

end Electrobun
